import Mathlib

/-!
Verification of the particle-fluid physics core of the gravity-water
repository.

The repository holds four JavaScript variants of the same simulation:
`water.js`, and three `fluid.js` variants (`part_000`, `part_001` — which
contains two concatenated programs — and `part_002`).  The physics frame
step (`updatePhysics`) of `part_002` (identical in structure to `part_000`
and to the first program in `part_001`, up to the numeric constants in
`CONFIG`) is embedded below over exact rational arithmetic, with the
square-root function passed as an explicit parameter `sq : ℚ → ℚ` (the
source calls `Math.sqrt`; no theorem below depends on its values except
through hypotheses stated explicitly).  The second program in `part_001`
(lines 609-743), which builds the spatial grid once per frame instead of
once per substep, is embedded separately as `stepFrameB`.

The exact-rational `stepFrame` is a faithful model of the JS only on
executions that never produce a non-finite number: Lean's rational
division makes `0/0 = 0`, while the JS pointer repulsion produces `NaN`
there.  That single error path is modelled honestly on the side:
`pointerAccelCoreChecked` returns `none` where the JS divides by zero,
and the `QN := Option ℚ` pipeline (`qnAdd`, `clampCoordN`, ...) carries
the resulting `NaN` through the substep with the JS comparison semantics
(every comparison against `NaN` is false), showing that the boundary
clamp does not restore a `NaN` position.
-/

namespace GravityWater

/-- The `CONFIG` object shared by the fluid variants. -/
structure Config where
  particleCount : ℕ
  radius : ℚ
  physRadius : ℚ
  gravityScale : ℚ
  damping : ℚ
  stiffness : ℚ
  stiffnessNear : ℚ
  restDensity : ℚ
  interactionRadius : ℚ
  subSteps : ℕ
deriving DecidableEq

/-- Read-only environment of a frame: world bounds, gravity vector and
pointer state (`width`, `height`, `gravity`, `pointer` globals). -/
structure Env where
  width : ℚ
  height : ℚ
  gravityX : ℚ
  gravityY : ℚ
  pointerX : ℚ
  pointerY : ℚ
  pointerDown : Bool
deriving DecidableEq

/-- One particle: a slice through the parallel arrays
`particles.x/y/vx/vy/prevX/prevY`. -/
structure Particle where
  x : ℚ
  y : ℚ
  vx : ℚ
  vy : ℚ
  prevX : ℚ
  prevY : ℚ
deriving DecidableEq, Inhabited

/-- Source: `const GRID_SIZE = CONFIG.physRadius * 2`. -/
def gridSize (cfg : Config) : ℚ := cfg.physRadius * 2

/-- Cell coordinate of a point:
`Math.floor(x/GRID_SIZE) + "," + Math.floor(y/GRID_SIZE)` (the string key
of the JS object is an injective image of this integer pair). -/
def cellKey (cfg : Config) (x y : ℚ) : ℤ × ℤ :=
  (⌊x / gridSize cfg⌋, ⌊y / gridSize cfg⌋)

/-- The spatial hash grid `grid`: map from cell coordinate to the list of
particle indices pushed into that bucket, in insertion order.  A missing
JS key reads as the empty list. -/
def Grid : Type := ℤ × ℤ → List ℕ

/-- Source: `grid = {}`. -/
def emptyGrid : Grid := fun _ => []

/-- Source: `if(!grid[k]) grid[k]=[]; grid[k].push(i)`. -/
def gridInsert (g : Grid) (k : ℤ × ℤ) (i : ℕ) : Grid :=
  fun c => if c = k then g c ++ [i] else g c

/-- The grid build loop: for each particle index `i` in ascending order,
insert `i` into the bucket of its current cell. -/
def buildGrid (cfg : Config) (ps : List Particle) : Grid :=
  (List.range ps.length).foldl
    (fun g i =>
      gridInsert g (cellKey cfg (ps.getD i default).x (ps.getD i default).y) i)
    emptyGrid

/-- The nine cell offsets scanned by the neighbor query, in source order
(`for x in gx-1..gx+1 { for y in gy-1..gy+1 }`). -/
def cellOffsets : List (ℤ × ℤ) :=
  [(-1, -1), (-1, 0), (-1, 1), (0, -1), (0, 0), (0, 1), (1, -1), (1, 0), (1, 1)]

/-- Concatenation of the nine buckets of the 3×3 cell block centered on
`c`, in scan order. -/
def queryCandidates (g : Grid) (c : ℤ × ℤ) : List ℕ :=
  cellOffsets.flatMap (fun o => g (c.1 + o.1, c.2 + o.2))

/-- The epsilon of the neighbor filter, `0.001` in the source. -/
def epsQ : ℚ := 1 / 1000

/-- The true-neighbor distance test `d2 < GRID_SIZE*GRID_SIZE && d2 > 0.001`. -/
def neighborCondB (cfg : Config) (d2 : ℚ) : Bool :=
  decide (d2 < gridSize cfg * gridSize cfg) && decide (epsQ < d2)

/-- A collected neighbor record `{id, d, dx, dy}` (`d = Math.sqrt(d2)` and
`dx, dy` are cached at collection time). -/
structure Nbr where
  id : ℕ
  d : ℚ
  dx : ℚ
  dy : ℚ
deriving DecidableEq

/-- The body of the neighbor-collection loop for one candidate `j`:
`if(i===j) continue; dx=...; dy=...; d2=dx*dx+dy*dy;
if(d2 < GRID_SIZE*GRID_SIZE && d2>0.001) neighbors.push({id:j, d:Math.sqrt(d2), dx, dy})`. -/
def nbrEntry (cfg : Config) (sq : ℚ → ℚ) (ps : List Particle) (i : ℕ)
    (px py : ℚ) (j : ℕ) : Option Nbr :=
  if j = i then none
  else
    let dx := (ps.getD j default).x - px
    let dy := (ps.getD j default).y - py
    let d2 := dx * dx + dy * dy
    if neighborCondB cfg d2 then some ⟨j, sq d2, dx, dy⟩ else none

/-- Neighbor collection for particle `i` at `(px, py)`: scan the 3×3 cell
block, skip `i` itself, keep candidates passing the distance filter, and
cache `sqrt(d2)` and the offsets. -/
def collectNbrs (cfg : Config) (sq : ℚ → ℚ) (g : Grid) (ps : List Particle)
    (i : ℕ) (px py : ℚ) : List Nbr :=
  (queryCandidates g (cellKey cfg px py)).filterMap (nbrEntry cfg sq ps i px py)

/-- The density accumulation loop:
`for n of neighbors { q = 1 - n.d/GRID_SIZE; rho += q*q; rhoNear += q*q*q }`. -/
def accumDensity (cfg : Config) (ns : List Nbr) : ℚ × ℚ :=
  ns.foldl
    (fun a n =>
      let q := 1 - n.d / gridSize cfg
      (a.1 + q * q, a.2 + q * q * q))
    (0, 0)

/-- Source: `P = CONFIG.stiffness * (rho - CONFIG.restDensity)`. -/
def pressureOf (cfg : Config) (rho : ℚ) : ℚ :=
  cfg.stiffness * (rho - cfg.restDensity)

/-- Source: `PNear = CONFIG.stiffnessNear * rhoNear`. -/
def nearPressureOf (cfg : Config) (rhoNear : ℚ) : ℚ :=
  cfg.stiffnessNear * rhoNear

/-- Add `(dx, dy)` to a particle's position, other fields untouched. -/
def addXY (p : Particle) (dx dy : ℚ) : Particle :=
  { p with x := p.x + dx, y := p.y + dy }

/-- Source: `particles.x[j] += dx; particles.y[j] += dy` on the array. -/
def updXY (ps : List Particle) (j : ℕ) (dx dy : ℚ) : List Particle :=
  ps.set j (addXY (ps.getD j default) dx dy)

/-- The body of the displacement loop for one neighbor record:
`q = 1-n.d/GRID_SIZE; D = 0.5*(P*q+PNear*q*q); ux=(n.dx/n.d)*D;
uy=(n.dy/n.d)*D; particles.x[n.id]+=ux; …; dx-=ux; dy-=uy`. -/
def srcStep (cfg : Config) (P PN : ℚ) (acc : List Particle × ℚ × ℚ)
    (n : Nbr) : List Particle × ℚ × ℚ :=
  let q := 1 - n.d / gridSize cfg
  let D := 1 / 2 * (P * q + PN * q * q)
  let ux := n.dx / n.d * D
  let uy := n.dy / n.d * D
  (updXY acc.1 n.id ux uy, acc.2.1 - ux, acc.2.2 - uy)

/-- The displacement loop over the collected neighbor records: each
neighbor is displaced by `(n.dx/n.d*D, n.dy/n.d*D)` immediately and the
negated displacement is accumulated into the running pair. -/
def dispFold (cfg : Config) (P PN : ℚ) (ns : List Nbr)
    (st : List Particle × ℚ × ℚ) : List Particle × ℚ × ℚ :=
  ns.foldl (srcStep cfg P PN) st

/-- The relaxation body for one particle `i` (part_002 lines 233-273):
collect neighbors from the grid, accumulate the two densities, compute the
two pressures, displace every neighbor immediately while accumulating the
negated displacement, and finally apply the accumulated displacement to
`i` itself. -/
def relaxParticle (cfg : Config) (sq : ℚ → ℚ) (g : Grid)
    (ps : List Particle) (i : ℕ) : List Particle :=
  let px := (ps.getD i default).x
  let py := (ps.getD i default).y
  let ns := collectNbrs cfg sq g ps i px py
  let rr := accumDensity cfg ns
  let P := pressureOf cfg rr.1
  let PN := nearPressureOf cfg rr.2
  let res := dispFold cfg P PN ns (ps, 0, 0)
  updXY res.1 i res.2.1 res.2.2

/-- One relaxation sweep: the loop `for i of 0..count-1` running
`relaxParticle` against the (fixed) grid `g`, mutating the array as it
goes. -/
def relaxSweep (cfg : Config) (sq : ℚ → ℚ) (g : Grid)
    (ps : List Particle) : List Particle :=
  (List.range ps.length).foldl (fun acc i => relaxParticle cfg sq g acc i) ps

/-- The boundary pass of part_000/part_002 on one coordinate:
`if(x<m) x=m; if(x>bound-m) x=bound-m` (two independent tests). -/
def clampCoord (m bound x : ℚ) : ℚ :=
  let x1 := if x < m then m else x
  if x1 > bound - m then bound - m else x1

/-- The boundary pass of the second part_001 program on one coordinate:
`if (x < m) x = m; else if (x > bound - m) x = bound - m`. -/
def clampCoordB (m bound x : ℚ) : ℚ :=
  if x < m then m else if x > bound - m then bound - m else x

/-- Clamp one particle into the box with margin `CONFIG.radius`. -/
def clampP (cfg : Config) (env : Env) (p : Particle) : Particle :=
  { p with
    x := clampCoord cfg.radius env.width p.x
    y := clampCoord cfg.radius env.height p.y }

/-- Clamp one particle, `else if` variant. -/
def clampPB (cfg : Config) (env : Env) (p : Particle) : Particle :=
  { p with
    x := clampCoordB cfg.radius env.width p.x
    y := clampCoordB cfg.radius env.height p.y }

/-- The boundary loop at the end of a substep. -/
def clampAll (cfg : Config) (env : Env) (ps : List Particle) : List Particle :=
  ps.map (clampP cfg env)

/-- The boundary loop of the second part_001 program. -/
def clampAllB (cfg : Config) (env : Env) (ps : List Particle) : List Particle :=
  ps.map (clampPB cfg env)

/-- The pointer repulsion of the PREDICT phase (`mul` is the literal force
multiplier: `3` in part_002, `2.0` in the second part_001 program):
inside the cutoff it adds `(dx/d)*f` where `d = Math.sqrt(d2)` — note the
division is performed unguarded even when `d = 0`.  CAUTION: this total
function is the exact-rational model, in which Lean's `0/0 = 0`; it
therefore collapses the JS `0/0 = NaN` error path to a zero impulse.  The
honest model of that path is `pointerAccelCoreChecked` below, and the
`QN` pipeline traces the `NaN` through a substep; theorems about
`stepFrame` describe the `NaN`-free executions. -/
def pointerAccelCore (iR mul : ℚ) (sq : ℚ → ℚ) (down : Bool)
    (ptx pty x y : ℚ) : ℚ × ℚ :=
  if down then
    let dx := x - ptx
    let dy := y - pty
    let d2 := dx * dx + dy * dy
    if d2 < iR ^ 2 then
      let d := sq d2
      let f := (1 - d / iR) * mul
      (dx / d * f, dy / d * f)
    else (0, 0)
  else (0, 0)

/-- The same pointer repulsion with the division-by-zero hazard made
explicit: when the guard `d2 < iR^2` passes but the divisor `d = sqrt d2`
is `0`, the JS source produces `NaN` (there is no epsilon filter on this
path); the embedding returns `none` there. -/
def pointerAccelCoreChecked (iR mul : ℚ) (sq : ℚ → ℚ) (down : Bool)
    (ptx pty x y : ℚ) : Option (ℚ × ℚ) :=
  if down then
    let dx := x - ptx
    let dy := y - pty
    let d2 := dx * dx + dy * dy
    if d2 < iR ^ 2 then
      let d := sq d2
      if d = 0 then none
      else
        let f := (1 - d / iR) * mul
        some (dx / d * f, dy / d * f)
    else some (0, 0)
  else some (0, 0)

/-- PREDICT phase for one particle: add gravity and pointer impulse to
velocity, save `prev := position`, then `position += velocity`. -/
def predictP (cfg : Config) (env : Env) (sq : ℚ → ℚ) (mul : ℚ)
    (p : Particle) : Particle :=
  let vx1 := p.vx + env.gravityX * cfg.gravityScale
  let vy1 := p.vy + env.gravityY * cfg.gravityScale
  let a := pointerAccelCore cfg.interactionRadius mul sq env.pointerDown
    env.pointerX env.pointerY p.x p.y
  let vx2 := vx1 + a.1
  let vy2 := vy1 + a.2
  { x := p.x + vx2, y := p.y + vy2, vx := vx2, vy := vy2,
    prevX := p.x, prevY := p.y }

/-- The PREDICT loop of part_002 (pointer multiplier `3`). -/
def predictAll (cfg : Config) (env : Env) (sq : ℚ → ℚ)
    (ps : List Particle) : List Particle :=
  ps.map (predictP cfg env sq 3)

/-- RECONCILE for one particle:
`vx = (x - prevX)*damping; vy = (y - prevY)*damping`. -/
def reconcileP (cfg : Config) (p : Particle) : Particle :=
  { p with
    vx := (p.x - p.prevX) * cfg.damping
    vy := (p.y - p.prevY) * cfg.damping }

/-- One relaxation substep of part_000/part_002: rebuild the grid from the
current positions, sweep, then clamp. -/
def substep (cfg : Config) (env : Env) (sq : ℚ → ℚ)
    (ps : List Particle) : List Particle :=
  clampAll cfg env (relaxSweep cfg sq (buildGrid cfg ps) ps)

/-- The substep loop of part_000/part_002 (`for s in 0..subSteps-1`),
also returning, in chronological order, each grid the loop built. -/
def relaxLoop (cfg : Config) (env : Env) (sq : ℚ → ℚ) :
    ℕ → List Particle → List Particle × List Grid
  | 0, ps => (ps, [])
  | k + 1, ps =>
    let g := buildGrid cfg ps
    let r := relaxLoop cfg env sq k (clampAll cfg env (relaxSweep cfg sq g ps))
    (r.1, g :: r.2)

/-- The whole `updatePhysics` of part_002: PREDICT, `subSteps` relaxation
substeps (each rebuilding the grid), RECONCILE.  The second component is
the list of grids built during the frame. -/
def stepFrame (cfg : Config) (env : Env) (sq : ℚ → ℚ)
    (ps : List Particle) : List Particle × List Grid :=
  let ps1 := predictAll cfg env sq ps
  let r := relaxLoop cfg env sq cfg.subSteps ps1
  ((r.1).map (reconcileP cfg), r.2)

/-- PREDICT of the second part_001 program (lines 610-641): gravity,
pointer impulse with multiplier `2.0`, save prev, move, then clamp with
margin `CONFIG.radius` already inside the predict loop. -/
def predictPB (cfg : Config) (env : Env) (sq : ℚ → ℚ) (p : Particle) :
    Particle :=
  clampP cfg env (predictP cfg env sq 2 p)

/-- The substep loop of the second part_001 program: every substep sweeps
against the single grid `g` built before the loop, then clamps
(`else if` variant). -/
def relaxLoopB (cfg : Config) (env : Env) (sq : ℚ → ℚ) (g : Grid) :
    ℕ → List Particle → List Particle
  | 0, ps => ps
  | k + 1, ps =>
    relaxLoopB cfg env sq g k (clampAllB cfg env (relaxSweep cfg sq g ps))

/-- The whole `updatePhysics` of the second part_001 program (lines
609-743): PREDICT (with in-loop clamp), ONE grid build, `subSteps`
relaxation sweeps against that same grid, RECONCILE.  The second
component is the list of grids built during the frame — a single build. -/
def stepFrameB (cfg : Config) (env : Env) (sq : ℚ → ℚ)
    (ps : List Particle) : List Particle × List Grid :=
  let ps1 := ps.map (predictPB cfg env sq)
  let g := buildGrid cfg ps1
  let ps2 := relaxLoopB cfg env sq g cfg.subSteps ps1
  (ps2.map (reconcileP cfg), [g])

/-- The `CONFIG` of part_000. -/
def CONFIG_000 : Config :=
  { particleCount := 900, radius := 20, physRadius := 15,
    gravityScale := 18 / 100, damping := 96 / 100, stiffness := 2 / 100,
    stiffnessNear := 1 / 10, restDensity := 3, interactionRadius := 120,
    subSteps := 2 }

/-- The `CONFIG` of the first program in part_001. -/
def CONFIG_001A : Config :=
  { particleCount := 1500, radius := 12, physRadius := 10,
    gravityScale := 15 / 100, damping := 985 / 1000, stiffness := 4 / 100,
    stiffnessNear := 1 / 10, restDensity := 4, interactionRadius := 80,
    subSteps := 3 }

/-- The `CONFIG` of the second program in part_001. -/
def CONFIG_001B : Config :=
  { particleCount := 1500, radius := 12, physRadius := 10,
    gravityScale := 15 / 100, damping := 99 / 100, stiffness := 8 / 100,
    stiffnessNear := 1 / 10, restDensity := 5, interactionRadius := 80,
    subSteps := 2 }

/-- The `CONFIG` of part_002. -/
def CONFIG_002 : Config :=
  { particleCount := 1500, radius := 12, physRadius := 10,
    gravityScale := 15 / 100, damping := 985 / 1000, stiffness := 4 / 100,
    stiffnessNear := 1 / 10, restDensity := 4, interactionRadius := 80,
    subSteps := 3 }

/-- A concrete quiet environment used by witnesses. -/
def env0 : Env :=
  { width := 800, height := 600, gravityX := 0, gravityY := 1,
    pointerX := -1000, pointerY := -1000, pointerDown := false }

/-- Squared Euclidean distance between the positions of two particles,
written as the spec writes it. -/
def d2Spec (a b : Particle) : ℚ := (a.x - b.x) ^ 2 + (a.y - b.y) ^ 2

/-- Modelled from the spec wording of the claim: the true-neighbor test,
squared distance `d2 < cellSize²` and `d2 > ε`. -/
def trueNbrB (cfg : Config) (ps : List Particle) (i : ℕ) (j : ℕ) : Bool :=
  decide (d2Spec (ps.getD j default) (ps.getD i default) < gridSize cfg ^ 2)
    && decide (epsQ < d2Spec (ps.getD j default) (ps.getD i default))

/-- Modelled from the spec wording of the claim (reference double-density
relaxation): the true neighbors of particle `i` are exactly the 3×3-block
candidates whose squared distance `d2` to `i` satisfies
`d2 < cellSize^2` and `d2 > ε`. -/
def trueNeighbors (cfg : Config) (g : Grid) (ps : List Particle) (i : ℕ) :
    List ℕ :=
  (queryCandidates g
      (cellKey cfg (ps.getD i default).x (ps.getD i default).y)).filter
    (trueNbrB cfg ps i)

/-- Modelled from the spec wording of the claim: one iteration of the
per-neighbor displacement loop, reading the positions as they stand at
that moment: with `q = 1 − d/cellSize` for the current distance `d`, the
displacement `Δ = 0.5×(P·q + Pnear·q²) × unit(position[j] − position[i])`
is added to `j`'s position immediately and `−Δ` is accumulated. -/
def specStep (cfg : Config) (sq : ℚ → ℚ) (pi : Particle) (P PN : ℚ)
    (acc : List Particle × ℚ × ℚ) (j : ℕ) : List Particle × ℚ × ℚ :=
  let dx := (acc.1.getD j default).x - pi.x
  let dy := (acc.1.getD j default).y - pi.y
  let d := sq (dx ^ 2 + dy ^ 2)
  let q := 1 - d / gridSize cfg
  let D := 1 / 2 * (P * q + PN * q ^ 2)
  let ux := D * (dx / d)
  let uy := D * (dy / d)
  (updXY acc.1 j ux uy, acc.2.1 - ux, acc.2.2 - uy)

/-- Modelled from the spec wording of the claim: the per-neighbor
displacement loop.  For each true neighbor `j` in turn, the displacement
`Δ = D × unit(position[j] − position[i])` (with `D = 0.5×(P·q + Pnear·q²)`
recomputed from the positions as they stand at that moment) is added to
`j`'s position immediately and `−Δ` is accumulated. -/
def dispFoldSpec (cfg : Config) (sq : ℚ → ℚ) (pi : Particle) (P PN : ℚ)
    (tn : List ℕ) (st : List Particle × ℚ × ℚ) : List Particle × ℚ × ℚ :=
  tn.foldl (specStep cfg sq pi P PN) st

/-- Modelled from the spec wording of the claim: one relaxation substep
for particle `i` of the reference double-density relaxation.  With
`q = 1 − d/cellSize`, local density `ρ = Σ q²` and near density
`ρnear = Σ q³` over the true neighbors; `P = stiffness × (ρ − restDensity)`
and `Pnear = stiffnessNear × ρnear`; each neighbor is displaced by `+Δ`
immediately while `−Δ` accumulates, and the accumulated sum is applied to
`i` only after the whole neighbor loop finishes. -/
def relaxParticleSpec (cfg : Config) (sq : ℚ → ℚ) (g : Grid)
    (ps : List Particle) (i : ℕ) : List Particle :=
  let pi := ps.getD i default
  let tn := trueNeighbors cfg g ps i
  let rho :=
    (tn.map (fun j =>
      (1 - sq (d2Spec (ps.getD j default) pi) / gridSize cfg) ^ 2)).sum
  let rhoNear :=
    (tn.map (fun j =>
      (1 - sq (d2Spec (ps.getD j default) pi) / gridSize cfg) ^ 3)).sum
  let P := cfg.stiffness * (rho - cfg.restDensity)
  let PN := cfg.stiffnessNear * rhoNear
  let res := dispFoldSpec cfg sq pi P PN tn (ps, 0, 0)
  updXY res.1 i res.2.1 res.2.2

/-- Boolean check that every particle of a list lies inside the claimed
boundary interval `[physRadius, bound − physRadius]` on both axes. -/
def allInBounds (cfg : Config) (env : Env) (ps : List Particle) : Bool :=
  ps.all (fun p =>
    decide (cfg.physRadius ≤ p.x) && decide (p.x ≤ env.width - cfg.physRadius)
      && decide (cfg.physRadius ≤ p.y)
      && decide (p.y ≤ env.height - cfg.physRadius))

/-! ### Helper lemmas: spatial grid -/

theorem gridFoldl_apply (key : ℕ → ℤ × ℤ) (l : List ℕ) (g : Grid)
    (c : ℤ × ℤ) :
    (l.foldl (fun g i => gridInsert g (key i) i) g) c
      = g c ++ l.filter (fun i => decide (key i = c)) := by
  induction l generalizing g with
  | nil => simp
  | cons a t ih =>
    simp only [List.foldl_cons, List.filter_cons]
    rw [ih]
    by_cases h : key a = c
    · simp [gridInsert, h]
    · simp only [gridInsert]
      have hc : ¬(c = key a) := fun hx => h hx.symm
      simp [hc, h]

theorem buildGrid_apply (cfg : Config) (ps : List Particle) (c : ℤ × ℤ) :
    buildGrid cfg ps c
      = (List.range ps.length).filter
          (fun i =>
            decide (cellKey cfg (ps.getD i default).x (ps.getD i default).y
              = c)) := by
  unfold buildGrid
  rw [gridFoldl_apply (fun i =>
    cellKey cfg (ps.getD i default).x (ps.getD i default).y)]
  rfl

theorem mem_buildGrid {cfg : Config} {ps : List Particle} {j : ℕ}
    (hj : j < ps.length) :
    j ∈ buildGrid cfg ps
      (cellKey cfg (ps.getD j default).x (ps.getD j default).y) := by
  rw [buildGrid_apply]
  simp [List.mem_filter, List.mem_range, hj]

theorem of_mem_buildGrid {cfg : Config} {ps : List Particle} {c : ℤ × ℤ}
    {j : ℕ} (h : j ∈ buildGrid cfg ps c) :
    cellKey cfg (ps.getD j default).x (ps.getD j default).y = c
      ∧ j < ps.length := by
  rw [buildGrid_apply] at h
  have h1 := List.mem_filter.mp h
  refine ⟨by simpa using h1.2, by simpa using List.mem_range.mp h1.1⟩

theorem nodup_buildGrid (cfg : Config) (ps : List Particle) (c : ℤ × ℤ) :
    (buildGrid cfg ps c).Nodup := by
  rw [buildGrid_apply]
  exact (List.nodup_range _).filter _

theorem nodup_cellOffsets : cellOffsets.Pairwise (fun a b => a ≠ b) := by
  decide

theorem nodup_queryCandidates (cfg : Config) (ps : List Particle)
    (c : ℤ × ℤ) : (queryCandidates (buildGrid cfg ps) c).Nodup := by
  unfold queryCandidates
  rw [List.nodup_flatMap]
  constructor
  · intro o _
    exact nodup_buildGrid cfg ps _
  · refine nodup_cellOffsets.imp ?_
    intro a b hab
    intro x hxa hxb
    have h1 := (of_mem_buildGrid hxa).1
    have h2 := (of_mem_buildGrid hxb).1
    apply hab
    have h3 : (c.1 + a.1, c.2 + a.2) = (c.1 + b.1, c.2 + b.2) :=
      h1 ▸ h2
    rcases Prod.mk.injEq (c.1 + a.1) (c.2 + a.2) (c.1 + b.1) (c.2 + b.2)
      ▸ h3 with ⟨hA, hB⟩
    exact Prod.ext (by omega) (by omega)

theorem mem_queryCandidates {g : Grid} {c : ℤ × ℤ} {j : ℕ} (o : ℤ × ℤ)
    (ho : o ∈ cellOffsets) (h : j ∈ g (c.1 + o.1, c.2 + o.2)) :
    j ∈ queryCandidates g c := by
  unfold queryCandidates
  rw [List.mem_flatMap]
  exact ⟨o, ho, h⟩

/-! ### Helper lemmas: indexed position updates -/

theorem updXY_nil (j : ℕ) (dx dy : ℚ) : updXY [] j dx dy = [] := by
  simp [updXY]

theorem updXY_cons_zero (p : Particle) (t : List Particle) (dx dy : ℚ) :
    updXY (p :: t) 0 dx dy = addXY p dx dy :: t := by
  simp [updXY]

theorem updXY_cons_succ (p : Particle) (t : List Particle) (j : ℕ)
    (dx dy : ℚ) :
    updXY (p :: t) (j + 1) dx dy = p :: updXY t j dx dy := by
  simp [updXY]

theorem length_updXY (ps : List Particle) (j : ℕ) (dx dy : ℚ) :
    (updXY ps j dx dy).length = ps.length := by
  simp [updXY]

theorem getD_updXY_ne (ps : List Particle) {j k : ℕ} (h : k ≠ j)
    (dx dy : ℚ) :
    (updXY ps j dx dy).getD k default = ps.getD k default := by
  induction ps generalizing j k with
  | nil => simp [updXY]
  | cons p t ih =>
    cases j with
    | zero =>
      rw [updXY_cons_zero]
      cases k with
      | zero => exact absurd rfl h
      | succ m => simp
    | succ j0 =>
      rw [updXY_cons_succ]
      cases k with
      | zero => simp
      | succ m =>
        simp only [List.getD_cons_succ]
        exact ih (fun hx => h (by omega))

theorem map_updXY {α : Type} (f : Particle → α)
    (hf : ∀ p dx dy, f (addXY p dx dy) = f p)
    (ps : List Particle) (j : ℕ) (dx dy : ℚ) :
    (updXY ps j dx dy).map f = ps.map f := by
  induction ps generalizing j with
  | nil => rw [updXY_nil]
  | cons p t ih =>
    cases j with
    | zero => rw [updXY_cons_zero]; simp [hf]
    | succ j0 => rw [updXY_cons_succ]; simp [ih]

/-- Fields other than position survive `addXY`. -/
theorem addXY_aux (p : Particle) (dx dy : ℚ) :
    (addXY p dx dy).vx = p.vx ∧ (addXY p dx dy).vy = p.vy
      ∧ (addXY p dx dy).prevX = p.prevX
      ∧ (addXY p dx dy).prevY = p.prevY := by
  simp [addXY]

/-! ### Helper lemmas: structure of the per-particle relaxation -/

theorem dispFold_nil (cfg : Config) (P PN : ℚ)
    (st : List Particle × ℚ × ℚ) : dispFold cfg P PN [] st = st := rfl

theorem dispFold_cons (cfg : Config) (P PN : ℚ) (n : Nbr) (t : List Nbr)
    (st : List Particle × ℚ × ℚ) :
    dispFold cfg P PN (n :: t) st
      = dispFold cfg P PN t (srcStep cfg P PN st n) := rfl

theorem length_srcStep (cfg : Config) (P PN : ℚ)
    (st : List Particle × ℚ × ℚ) (n : Nbr) :
    ((srcStep cfg P PN st n).1).length = st.1.length := by
  unfold srcStep
  exact length_updXY ..

theorem map_srcStep {α : Type} (f : Particle → α)
    (hf : ∀ p dx dy, f (addXY p dx dy) = f p)
    (cfg : Config) (P PN : ℚ) (st : List Particle × ℚ × ℚ) (n : Nbr) :
    ((srcStep cfg P PN st n).1).map f = st.1.map f := by
  unfold srcStep
  exact map_updXY f hf ..

theorem length_dispFold (cfg : Config) (P PN : ℚ) (ns : List Nbr)
    (st : List Particle × ℚ × ℚ) :
    ((dispFold cfg P PN ns st).1).length = st.1.length := by
  induction ns generalizing st with
  | nil => rfl
  | cons n t ih =>
    rw [dispFold_cons]
    rw [ih]
    exact length_srcStep ..

theorem map_dispFold {α : Type} (f : Particle → α)
    (hf : ∀ p dx dy, f (addXY p dx dy) = f p)
    (cfg : Config) (P PN : ℚ) (ns : List Nbr)
    (st : List Particle × ℚ × ℚ) :
    ((dispFold cfg P PN ns st).1).map f = st.1.map f := by
  induction ns generalizing st with
  | nil => rfl
  | cons n t ih =>
    rw [dispFold_cons, ih]
    exact map_srcStep f hf ..

theorem length_relaxParticle (cfg : Config) (sq : ℚ → ℚ) (g : Grid)
    (ps : List Particle) (i : ℕ) :
    (relaxParticle cfg sq g ps i).length = ps.length := by
  unfold relaxParticle
  rw [length_updXY, length_dispFold]

theorem map_relaxParticle {α : Type} (f : Particle → α)
    (hf : ∀ p dx dy, f (addXY p dx dy) = f p)
    (cfg : Config) (sq : ℚ → ℚ) (g : Grid) (ps : List Particle) (i : ℕ) :
    (relaxParticle cfg sq g ps i).map f = ps.map f := by
  unfold relaxParticle
  rw [map_updXY f hf, map_dispFold f hf]

theorem length_relaxSweep (cfg : Config) (sq : ℚ → ℚ) (g : Grid)
    (ps : List Particle) :
    (relaxSweep cfg sq g ps).length = ps.length := by
  unfold relaxSweep
  generalize List.range ps.length = l
  induction l generalizing ps with
  | nil => rfl
  | cons a t ih =>
    rw [List.foldl_cons]
    rw [ih (relaxParticle cfg sq g ps a)]
    exact length_relaxParticle ..

theorem map_relaxSweep {α : Type} (f : Particle → α)
    (hf : ∀ p dx dy, f (addXY p dx dy) = f p)
    (cfg : Config) (sq : ℚ → ℚ) (g : Grid) (ps : List Particle) :
    (relaxSweep cfg sq g ps).map f = ps.map f := by
  unfold relaxSweep
  generalize List.range ps.length = l
  induction l generalizing ps with
  | nil => rfl
  | cons a t ih =>
    rw [List.foldl_cons]
    rw [ih (relaxParticle cfg sq g ps a)]
    exact map_relaxParticle f hf ..

/-! ### Helper lemmas: substep, frame, and `getD`/`map` interaction -/

theorem getD_map (f : Particle → Particle) (l : List Particle) (i : ℕ)
    (d : Particle) : (l.map f).getD i (f d) = f (l.getD i d) := by
  induction l generalizing i with
  | nil => simp
  | cons p t ih =>
    cases i with
    | zero => simp
    | succ m => exact ih m

/-- Projection to the `prev` fields. -/
def prevPair (p : Particle) : ℚ × ℚ := (p.prevX, p.prevY)

theorem prevPair_addXY (p : Particle) (dx dy : ℚ) :
    prevPair (addXY p dx dy) = prevPair p := rfl

theorem prevPair_clampP (cfg : Config) (env : Env) (p : Particle) :
    prevPair (clampP cfg env p) = prevPair p := rfl

theorem length_clampAll (cfg : Config) (env : Env) (ps : List Particle) :
    (clampAll cfg env ps).length = ps.length := by
  simp [clampAll]

theorem length_substep (cfg : Config) (env : Env) (sq : ℚ → ℚ)
    (ps : List Particle) : (substep cfg env sq ps).length = ps.length := by
  unfold substep
  rw [length_clampAll, length_relaxSweep]

theorem map_prevPair_substep (cfg : Config) (env : Env) (sq : ℚ → ℚ)
    (ps : List Particle) :
    (substep cfg env sq ps).map prevPair = ps.map prevPair := by
  unfold substep clampAll
  rw [List.map_map]
  have h1 : prevPair ∘ clampP cfg env = prevPair := by
    funext p
    exact prevPair_clampP cfg env p
  rw [h1]
  exact map_relaxSweep prevPair (fun p dx dy => rfl) ..

theorem relaxLoop_fst (cfg : Config) (env : Env) (sq : ℚ → ℚ) (k : ℕ)
    (ps : List Particle) :
    (relaxLoop cfg env sq k ps).1 = (substep cfg env sq)^[k] ps := by
  induction k generalizing ps with
  | zero => rfl
  | succ m ih =>
    show (relaxLoop cfg env sq m (substep cfg env sq ps)).1 = _
    rw [ih, Function.iterate_succ_apply]

theorem relaxLoop_snd (cfg : Config) (env : Env) (sq : ℚ → ℚ) (k : ℕ)
    (ps : List Particle) :
    (relaxLoop cfg env sq k ps).2
      = (List.range k).map
          (fun s => buildGrid cfg ((substep cfg env sq)^[s] ps)) := by
  induction k generalizing ps with
  | zero => rfl
  | succ m ih =>
    show buildGrid cfg ps :: (relaxLoop cfg env sq m (substep cfg env sq ps)).2
        = _
    rw [ih, List.range_succ_eq_map, List.map_cons, List.map_map]
    refine congrArg₂ _ rfl ?_
    refine List.map_congr_left ?_
    intro s _
    rfl

theorem length_iterate_substep (cfg : Config) (env : Env) (sq : ℚ → ℚ)
    (k : ℕ) (ps : List Particle) :
    ((substep cfg env sq)^[k] ps).length = ps.length := by
  induction k generalizing ps with
  | zero => rfl
  | succ m ih =>
    rw [Function.iterate_succ_apply, ih, length_substep]

theorem map_prevPair_iterate_substep (cfg : Config) (env : Env)
    (sq : ℚ → ℚ) (k : ℕ) (ps : List Particle) :
    ((substep cfg env sq)^[k] ps).map prevPair = ps.map prevPair := by
  induction k generalizing ps with
  | zero => rfl
  | succ m ih =>
    rw [Function.iterate_succ_apply, ih, map_prevPair_substep]

/-! ### Helper lemmas: the boundary clamp -/

theorem clampCoord_eq_min_max (m bound x : ℚ) (h : 2 * m ≤ bound) :
    clampCoord m bound x = min (max x m) (bound - m) := by
  unfold clampCoord
  by_cases h1 : x < m
  · simp only [if_pos h1]
    by_cases h2 : m > bound - m
    · exact absurd h2 (by linarith)
    · rw [if_neg h2, max_eq_right (le_of_lt h1),
        min_eq_left (by linarith)]
  · simp only [if_neg h1]
    by_cases h2 : x > bound - m
    · rw [if_pos h2, max_eq_left (le_of_not_lt h1),
        min_eq_right (le_of_lt h2)]
    · rw [if_neg h2, max_eq_left (le_of_not_lt h1),
        min_eq_left (le_of_not_lt h2)]

theorem clampCoord_bounds (mP m bound x : ℚ) (hPm : mP ≤ m)
    (h : 2 * m ≤ bound) :
    mP ≤ clampCoord m bound x ∧ clampCoord m bound x ≤ bound - mP := by
  unfold clampCoord
  by_cases h1 : x < m
  · simp only [if_pos h1]
    by_cases h2 : m > bound - m
    · exact absurd h2 (by linarith)
    · rw [if_neg h2]
      constructor <;> linarith
  · simp only [if_neg h1]
    by_cases h2 : x > bound - m
    · rw [if_pos h2]
      constructor <;> linarith
    · rw [if_neg h2]
      push_neg at h1 h2
      constructor <;> linarith

theorem clampCoord_eq_ite (m bound x : ℚ) :
    clampCoord m bound x
      = if (if x < m then m else x) > bound - m then bound - m
        else (if x < m then m else x) := rfl

theorem clampCoord_idem (m bound x : ℚ) :
    clampCoord m bound (clampCoord m bound x) = clampCoord m bound x := by
  simp only [clampCoord_eq_ite]
  split_ifs <;> linarith

theorem clampP_idem (cfg : Config) (env : Env) (p : Particle) :
    clampP cfg env (clampP cfg env p) = clampP cfg env p := by
  unfold clampP
  simp [clampCoord_idem]

/-- A concrete particle used in witnesses and counterexamples. -/
def pEx : Particle := ⟨100, 100, 0, 0, 100, 100⟩

/-! ### A JS number that may be `NaN`

The JS pointer repulsion computes `dx/d` with `d = Math.sqrt(d2)` and no
zero guard; at `d2 = 0` this is `0/0 = NaN`, which then propagates into
the particle's velocity and position.  `QN` models such a coordinate:
`none` is `NaN`, addition propagates it, and — as in JS — every `<` and
`>` comparison involving `NaN` is false, so the boundary clamp leaves a
`NaN` coordinate unchanged. -/

/-- A JS numeric value: `some q` is the finite rational `q`, `none` is
`NaN`. -/
def QN : Type := Option ℚ

/-- Addition on `QN`: `NaN` absorbs (`NaN + v = NaN` in JS). -/
def qnAdd : QN → QN → QN
  | some a, some b => some (a + b)
  | _, _ => none

/-- The JS `<` on `QN`: false whenever either side is `NaN`. -/
def qnLtB : QN → QN → Bool
  | some a, some b => decide (a < b)
  | _, _ => false

/-- The boundary pass of part_000/part_002 on one `QN` coordinate, the
exact translation of `if(x<m) x=m; if(x>bound-m) x=bound-m` under JS
comparison semantics: both guards are false on `NaN`, so a `NaN`
coordinate passes through unclamped. -/
def clampCoordN (m bound : ℚ) (x : QN) : QN :=
  let x1 := if qnLtB x (some m) then some m else x
  if qnLtB (some (bound - m)) x1 then some (bound - m) else x1

/-- The claimed containment `physRadius ≤ x ∧ x ≤ bound − physRadius` on
a `QN` coordinate; a `NaN` coordinate satisfies no inequality. -/
def qnInBoundsB (mP bound : ℚ) : QN → Bool
  | some v => decide (mP ≤ v) && decide (v ≤ bound - mP)
  | none => false

/-- The `x` coordinate a particle has at the end of PREDICT, with the
pointer division checked: when the repulsion divides by zero the JS
velocity `vx += dx/d*f` is `NaN` and so is `x += vx` (`none`); otherwise
it is the finite `x + (vx + gravity·scale + accel)` that `predictP`
computes. -/
def predictXChecked (cfg : Config) (env : Env) (sq : ℚ → ℚ) (mul : ℚ)
    (p : Particle) : QN :=
  match pointerAccelCoreChecked cfg.interactionRadius mul sq
      env.pointerDown env.pointerX env.pointerY p.x p.y with
  | none => none
  | some a => some (p.x + (p.vx + env.gravityX * cfg.gravityScale + a.1))

/-- The relaxation displacement a frame's only particle receives is zero:
for a finite position this is `relaxParticle_singleton`; for a `NaN`
position the scan `for(let x=gx-1; x<=gx+1; x++)` has `NaN` bounds and
runs zero iterations, so the neighbor list is empty as well.  Either way
the source then executes `particles.x[i] += 0`. -/
def relaxXSingle (x : QN) : QN := qnAdd x (some 0)

/-- One relaxation substep on the `x` coordinate of a frame's only
particle: the (empty-neighborhood) relaxation followed by the boundary
clamp with margin `CONFIG.radius`. -/
def substepXSingle (cfg : Config) (env : Env) (x : QN) : QN :=
  clampCoordN cfg.radius env.width (relaxXSingle x)

/-- The `x` coordinate of a frame's only particle immediately after the
first relaxation substep, with the PREDICT pointer division checked. -/
def frameXAfterSubstep1 (cfg : Config) (env : Env) (sq : ℚ → ℚ)
    (mul : ℚ) (p : Particle) : QN :=
  substepXSingle cfg env (predictXChecked cfg env sq mul p)

/-- An environment with the pointer active exactly at `pEx`'s position. -/
def env8 : Env :=
  { width := 800, height := 600, gravityX := 0, gravityY := 1,
    pointerX := 100, pointerY := 100, pointerDown := true }

theorem qnAdd_none (b : QN) : qnAdd none b = none := rfl

theorem clampCoordN_none (m bound : ℚ) :
    clampCoordN m bound none = none := rfl

/-- On finite coordinates the `QN` clamp is exactly the exact-rational
clamp, evidence that `clampCoordN` is the honest extension. -/
theorem clampCoordN_some (m bound x : ℚ) :
    clampCoordN m bound (some x) = some (clampCoord m bound x) := by
  unfold clampCoordN clampCoord qnLtB
  by_cases h1 : x < m
  · by_cases h2 : bound - m < m
    · simp [h1, h2]
    · simp [h1, h2]
  · by_cases h2 : bound - m < x
    · simp [h1, h2]
    · simp [h1, h2]

/-- Where the checked pointer repulsion is finite, it agrees with the
total exact-rational one used inside `stepFrame` — the two models
diverge only on the division-by-zero path. -/
theorem pointerAccelCoreChecked_some {iR mul : ℚ} {sq : ℚ → ℚ}
    {down : Bool} {ptx pty x y : ℚ} {a : ℚ × ℚ}
    (h : pointerAccelCoreChecked iR mul sq down ptx pty x y = some a) :
    pointerAccelCore iR mul sq down ptx pty x y = a := by
  unfold pointerAccelCoreChecked at h
  unfold pointerAccelCore
  by_cases hdown : down
  · simp only [if_pos hdown] at h ⊢
    by_cases hg : (x - ptx) * (x - ptx) + (y - pty) * (y - pty) < iR ^ 2
    · simp only [if_pos hg] at h ⊢
      by_cases hd : sq ((x - ptx) * (x - ptx) + (y - pty) * (y - pty)) = 0
      · rw [if_pos hd] at h
        exact absurd h (by simp)
      · rw [if_neg hd] at h
        injection h
    · simp only [if_neg hg] at h ⊢
      injection h
  · simp only [if_neg hdown] at h ⊢
    injection h

/-! ### Helper lemmas: a single isolated particle -/

theorem buildGrid_singleton_apply (cfg : Config) (p : Particle)
    (c : ℤ × ℤ) :
    buildGrid cfg [p] c = if cellKey cfg p.x p.y = c then [0] else [] := by
  rw [buildGrid_apply]
  have hr : List.range 1 = [0] := rfl
  simp only [List.length_singleton, hr, List.filter_cons,
    List.filter_nil, List.getD_cons_zero]
  by_cases h : cellKey cfg p.x p.y = c
  · simp [h]
  · simp [h]

theorem queryCandidates_singleton (cfg : Config) (p : Particle) :
    queryCandidates (buildGrid cfg [p]) (cellKey cfg p.x p.y) = [0] := by
  unfold queryCandidates cellOffsets
  simp only [List.flatMap_cons, List.flatMap_nil, List.append_nil,
    buildGrid_singleton_apply]
  generalize cellKey cfg p.x p.y = k
  obtain ⟨a, b⟩ := k
  simp [Prod.mk.injEq]

theorem collectNbrs_singleton (cfg : Config) (sq : ℚ → ℚ) (p : Particle) :
    collectNbrs cfg sq (buildGrid cfg [p]) [p] 0 p.x p.y = [] := by
  unfold collectNbrs
  rw [queryCandidates_singleton]
  simp [nbrEntry]

theorem relaxParticle_singleton (cfg : Config) (sq : ℚ → ℚ)
    (p : Particle) :
    relaxParticle cfg sq (buildGrid cfg [p]) [p] 0 = [p] := by
  unfold relaxParticle
  simp only [List.getD_cons_zero]
  rw [collectNbrs_singleton, dispFold_nil, updXY_cons_zero]
  have h : addXY p 0 0 = p := by
    simp [addXY]
  rw [h]

theorem relaxSweep_singleton (cfg : Config) (sq : ℚ → ℚ) (p : Particle) :
    relaxSweep cfg sq (buildGrid cfg [p]) [p] = [p] := by
  unfold relaxSweep
  have hr : List.range 1 = [0] := rfl
  simp only [List.length_singleton, hr, List.foldl_cons,
    List.foldl_nil]
  exact relaxParticle_singleton cfg sq p

theorem substep_singleton (cfg : Config) (env : Env) (sq : ℚ → ℚ)
    (p : Particle) :
    substep cfg env sq [p] = [clampP cfg env p] := by
  unfold substep
  rw [relaxSweep_singleton]
  rfl

theorem iterate_substep_singleton (cfg : Config) (env : Env) (sq : ℚ → ℚ)
    (p : Particle) (k : ℕ) (hk : 1 ≤ k) :
    (substep cfg env sq)^[k] [p] = [clampP cfg env p] := by
  induction k with
  | zero => omega
  | succ m ih =>
    by_cases hm : m = 0
    · subst hm
      rw [Function.iterate_one]
      exact substep_singleton cfg env sq p
    · rw [Function.iterate_succ_apply', ih (by omega),
        substep_singleton, clampP_idem]

/-! ### Claim theorems -/

/-- Claim C1, amended.  In the part_000/part_002 frame step (and the
first part_001 program, which has the same shape) the spatial grid is
rebuilt from scratch at the start of every relaxation substep: the frame
performs exactly `subSteps` grid builds, and the grid built for substep
`s` is keyed from the particle positions as they stand after `s`
completed substeps, i.e. at that substep's start.  In the second part_001
program the grid is instead built once per frame before the substep loop
(see the counterexample). -/
theorem grid_rebuilt_per_substep (cfg : Config) (env : Env) (sq : ℚ → ℚ)
    (ps : List Particle) :
    (stepFrame cfg env sq ps).2.length = cfg.subSteps
      ∧ (stepFrame cfg env sq ps).2
        = (List.range cfg.subSteps).map
            (fun s =>
              buildGrid cfg
                ((substep cfg env sq)^[s] (predictAll cfg env sq ps))) := by
  constructor
  · show (relaxLoop cfg env sq cfg.subSteps (predictAll cfg env sq ps)).2.length
        = cfg.subSteps
    rw [relaxLoop_snd]
    simp
  · exact relaxLoop_snd cfg env sq cfg.subSteps (predictAll cfg env sq ps)

/-- Claim C1, counterexample.  The second part_001 program (lines
645-656) builds the grid exactly once per frame even though its
`CONFIG.subSteps` is `2`, so the grid-build operation does not run once
per substep there. -/
theorem grid_rebuilt_per_substep_cex :
    (stepFrameB CONFIG_001B env0 (fun _ => 0) [pEx]).2.length = 1
      ∧ CONFIG_001B.subSteps = 2
      ∧ (stepFrameB CONFIG_001B env0 (fun _ => 0) [pEx]).2.length
          ≠ CONFIG_001B.subSteps := by
  refine ⟨rfl, rfl, ?_⟩
  intro h
  exact absurd h (by decide)

/-- Claim C2, counterexample.  At the file's C8 input — pointer active
exactly at the particle's position — the PREDICT repulsion divides zero
by zero, so the particle's velocity and position become `NaN` (`none`);
the relaxation displaces it by nothing and the substep-ending boundary
clamp leaves `NaN` unchanged because both of its comparisons are false,
so immediately after the substep the position satisfies neither bound of
the claimed interval. -/
theorem boundary_containment_cex :
    frameXAfterSubstep1 CONFIG_002 env8 (fun _ => 0) 3 pEx = none
      ∧ qnInBoundsB CONFIG_002.physRadius env8.width
          (frameXAfterSubstep1 CONFIG_002 env8 (fun _ => 0) 3 pEx) = false
      ∧ clampCoordN CONFIG_002.radius env8.width none = none := by
  have h1 : pointerAccelCoreChecked CONFIG_002.interactionRadius 3
      (fun _ => 0) env8.pointerDown env8.pointerX env8.pointerY
      pEx.x pEx.y = none := by
    unfold pointerAccelCoreChecked
    norm_num [env8, pEx, CONFIG_002]
  have h2 : frameXAfterSubstep1 CONFIG_002 env8 (fun _ => 0) 3 pEx
      = none := by
    unfold frameXAfterSubstep1 substepXSingle relaxXSingle predictXChecked
    rw [h1]
    rfl
  refine ⟨h2, ?_, rfl⟩
  rw [h2]
  rfl

/-- Claim C2, amended: on every frame in which the PREDICT-phase pointer
repulsion divides by a nonzero distance for every particle (no particle
coincides exactly with the active pointer — otherwise the division-by-zero
path of C8 makes the position `NaN` and the clamp does not restore it, see
the counterexample), every particle position lies in
`[physRadius, width − physRadius] × [physRadius, height − physRadius]`
immediately after every relaxation substep.  The hypothesis `hfin`
delimits exactly the executions on which the exact-rational embedding is
faithful to the JS; the clamp uses margin `radius`, and every shipped
`CONFIG` has `physRadius ≤ radius`, so the claimed interval contains the
clamped one. -/
theorem boundary_containment (cfg : Config) (env : Env) (sq : ℚ → ℚ)
    (ps : List Particle)
    (hfin : ∀ p ∈ ps,
      pointerAccelCoreChecked cfg.interactionRadius 3 sq env.pointerDown
        env.pointerX env.pointerY p.x p.y ≠ none)
    (hm : cfg.physRadius ≤ cfg.radius)
    (hw : 2 * cfg.radius ≤ env.width) (hh : 2 * cfg.radius ≤ env.height)
    (s : ℕ) (hs : 1 ≤ s) :
    allInBounds cfg env
      ((substep cfg env sq)^[s] (predictAll cfg env sq ps)) = true := by
  obtain ⟨t, rfl⟩ : ∃ t, s = t + 1 := ⟨s - 1, by omega⟩
  rw [Function.iterate_succ_apply']
  generalize (substep cfg env sq)^[t] (predictAll cfg env sq ps) = qs
  unfold substep clampAll allInBounds
  rw [List.all_eq_true]
  intro p hp
  rw [List.mem_map] at hp
  obtain ⟨q, hq, rfl⟩ := hp
  have h1 := clampCoord_bounds cfg.physRadius cfg.radius env.width q.x hm hw
  have h2 := clampCoord_bounds cfg.physRadius cfg.radius env.height q.y hm hh
  simp only [clampP, Bool.and_eq_true, decide_eq_true_eq]
  exact ⟨⟨⟨h1.1, h1.2⟩, h2.1⟩, h2.2⟩

/-- Witness for the amended C2 at a concrete configuration and state
(pointer inactive, so the checked repulsion is finite for the particle). -/
theorem boundary_containment_witness :
    allInBounds CONFIG_002 env0
      ((substep CONFIG_002 env0 (fun _ => 0))^[1]
        (predictAll CONFIG_002 env0 (fun _ => 0) [pEx])) = true :=
  boundary_containment CONFIG_002 env0 (fun _ => 0) [pEx]
    (by
      intro p hp
      simp [pointerAccelCoreChecked, env0])
    (by norm_num [CONFIG_002]) (by norm_num [CONFIG_002, env0])
    (by norm_num [CONFIG_002, env0]) 1 (by norm_num)

/-- Claim C3, counterexample.  The boundary pass clamps with margin
`CONFIG.radius` (the visual radius, `20` in part_000), not
`physRadius` (`15`): the coordinate `17` lies inside
`[physRadius, bound − physRadius]`, so the claimed clamp would leave it
unchanged, but the code moves it to `20`. -/
theorem clamp_margin_cex :
    clampCoord CONFIG_000.radius 1000 17
      ≠ min (max 17 CONFIG_000.physRadius) (1000 - CONFIG_000.physRadius) := by
  have h1 : max (17 : ℚ) CONFIG_000.physRadius = 17 :=
    max_eq_left (by norm_num [CONFIG_000])
  have h2 : min (17 : ℚ) (1000 - CONFIG_000.physRadius) = 17 :=
    min_eq_left (by norm_num [CONFIG_000])
  rw [h1, h2, clampCoord_eq_ite]
  norm_num [CONFIG_000]

/-- Claim C3, amended: the boundary enforcement at the end of each substep
sets each coordinate to exactly `min(max(coordinate, radius), bound −
radius)` — the clamp margin is the visual radius `CONFIG.radius`, not
`physRadius` — and a coordinate already inside `[radius, bound − radius]`
is left unchanged. -/
theorem clamp_margin (cfg : Config) (env : Env) (p : Particle)
    (hw : 2 * cfg.radius ≤ env.width) (hh : 2 * cfg.radius ≤ env.height) :
    (clampP cfg env p).x = min (max p.x cfg.radius) (env.width - cfg.radius)
      ∧ (clampP cfg env p).y
          = min (max p.y cfg.radius) (env.height - cfg.radius)
      ∧ (cfg.radius ≤ p.x → p.x ≤ env.width - cfg.radius →
          (clampP cfg env p).x = p.x)
      ∧ (cfg.radius ≤ p.y → p.y ≤ env.height - cfg.radius →
          (clampP cfg env p).y = p.y) := by
  refine ⟨clampCoord_eq_min_max _ _ _ hw, clampCoord_eq_min_max _ _ _ hh,
    ?_, ?_⟩
  · intro hx1 hx2
    show clampCoord cfg.radius env.width p.x = p.x
    rw [clampCoord_eq_min_max _ _ _ hw, max_eq_left hx1, min_eq_left hx2]
  · intro hy1 hy2
    show clampCoord cfg.radius env.height p.y = p.y
    rw [clampCoord_eq_min_max _ _ _ hh, max_eq_left hy1, min_eq_left hy2]

/-- Witness for the amended C3 at a concrete configuration. -/
theorem clamp_margin_witness :
    (clampP CONFIG_000 env0 pEx).x
        = min (max pEx.x CONFIG_000.radius) (env0.width - CONFIG_000.radius)
      ∧ (clampP CONFIG_000 env0 pEx).y
          = min (max pEx.y CONFIG_000.radius) (env0.height - CONFIG_000.radius)
      ∧ (CONFIG_000.radius ≤ pEx.x → pEx.x ≤ env0.width - CONFIG_000.radius →
          (clampP CONFIG_000 env0 pEx).x = pEx.x)
      ∧ (CONFIG_000.radius ≤ pEx.y → pEx.y ≤ env0.height - CONFIG_000.radius →
          (clampP CONFIG_000 env0 pEx).y = pEx.y) :=
  clamp_margin CONFIG_000 env0 pEx (by norm_num [CONFIG_000, env0])
    (by norm_num [CONFIG_000, env0])

/-- Claim C7: the pressure `P = stiffness × (ρ − restDensity)` is not
clamped to non-negative; whenever the accumulated density is below the
rest density and the stiffness is positive, `P` is strictly negative. -/
theorem pressure_negative_below_rest (cfg : Config) (rho : ℚ)
    (h1 : rho < cfg.restDensity) (h2 : 0 < cfg.stiffness) :
    pressureOf cfg rho < 0 := by
  unfold pressureOf
  exact mul_neg_of_pos_of_neg h2 (by linarith)

/-- The density accumulated by an isolated concrete particle, fed to the
C7 witness. -/
def rhoW : ℚ :=
  (accumDensity CONFIG_002
    (collectNbrs CONFIG_002 (fun _ => 0) (buildGrid CONFIG_002 [pEx])
      [pEx] 0 pEx.x pEx.y)).1

theorem getD_map_gen {α β : Type} (f : α → β) (l : List α) (i : ℕ)
    (d : α) : (l.map f).getD i (f d) = f (l.getD i d) := by
  induction l generalizing i with
  | nil => simp
  | cons p t ih =>
    cases i with
    | zero => simp
    | succ m => exact ih m

theorem getD_of_length_le {α : Type} (l : List α) (i : ℕ) (d : α)
    (h : l.length ≤ i) : l.getD i d = d := by
  induction l generalizing i with
  | nil => simp
  | cons p t ih =>
    cases i with
    | zero => simp at h
    | succ m =>
      refine ih m ?_
      simp only [List.length_cons] at h
      omega

theorem length_predictAll (cfg : Config) (env : Env) (sq : ℚ → ℚ)
    (ps : List Particle) : (predictAll cfg env sq ps).length = ps.length := by
  simp [predictAll]

theorem stepFrame_fst (cfg : Config) (env : Env) (sq : ℚ → ℚ)
    (ps : List Particle) :
    (stepFrame cfg env sq ps).1
      = ((substep cfg env sq)^[cfg.subSteps]
          (predictAll cfg env sq ps)).map (reconcileP cfg) := by
  show ((relaxLoop cfg env sq cfg.subSteps (predictAll cfg env sq ps)).1).map
      (reconcileP cfg) = _
  rw [relaxLoop_fst]

/-- Claim C5: at the end of a frame every particle's velocity is exactly
`(position − previousPosition) × damping`, where `previousPosition` is
the position that PREDICT saved (the particle's position at frame start);
the reconstruction replaces the predicted velocity and nothing else
writes the velocity afterwards. -/
theorem velocity_reconstruction (cfg : Config) (env : Env) (sq : ℚ → ℚ)
    (ps : List Particle) (i : ℕ) :
    ((stepFrame cfg env sq ps).1.getD i default).vx
        = (((stepFrame cfg env sq ps).1.getD i default).x
            - ((stepFrame cfg env sq ps).1.getD i default).prevX)
          * cfg.damping
      ∧ ((stepFrame cfg env sq ps).1.getD i default).vy
          = (((stepFrame cfg env sq ps).1.getD i default).y
              - ((stepFrame cfg env sq ps).1.getD i default).prevY)
            * cfg.damping
      ∧ ((stepFrame cfg env sq ps).1.getD i default).prevX
          = (ps.getD i default).x
      ∧ ((stepFrame cfg env sq ps).1.getD i default).prevY
          = (ps.getD i default).y := by
  have hmid := stepFrame_fst cfg env sq ps
  have hlen : ((substep cfg env sq)^[cfg.subSteps]
      (predictAll cfg env sq ps)).length = ps.length := by
    rw [length_iterate_substep, length_predictAll]
  have hprev : ((substep cfg env sq)^[cfg.subSteps]
        (predictAll cfg env sq ps)).map prevPair
      = ps.map (fun p => (p.x, p.y)) := by
    rw [map_prevPair_iterate_substep]
    unfold predictAll
    rw [List.map_map]
    rfl
  have hdef : (default : Particle) = ⟨0, 0, 0, 0, 0, 0⟩ := rfl
  have hd : reconcileP cfg default = default := by
    rw [hdef]
    simp [reconcileP]
  by_cases hi : i < ps.length
  · have h1 : (stepFrame cfg env sq ps).1.getD i default
        = reconcileP cfg
            (((substep cfg env sq)^[cfg.subSteps]
              (predictAll cfg env sq ps)).getD i default) := by
      rw [hmid]
      calc (((substep cfg env sq)^[cfg.subSteps]
              (predictAll cfg env sq ps)).map (reconcileP cfg)).getD i default
          = (((substep cfg env sq)^[cfg.subSteps]
              (predictAll cfg env sq ps)).map (reconcileP cfg)).getD i
              (reconcileP cfg default) := by rw [hd]
        _ = reconcileP cfg
              (((substep cfg env sq)^[cfg.subSteps]
                (predictAll cfg env sq ps)).getD i default) :=
            getD_map_gen ..
    have h2 : prevPair
        (((substep cfg env sq)^[cfg.subSteps]
          (predictAll cfg env sq ps)).getD i default)
        = ((ps.getD i default).x, (ps.getD i default).y) := by
      have h3 : prevPair (default : Particle)
          = (fun p : Particle => (p.x, p.y)) default := rfl
      have h4 := getD_map_gen prevPair
        ((substep cfg env sq)^[cfg.subSteps] (predictAll cfg env sq ps))
        i default
      have h5 := getD_map_gen (fun p : Particle => (p.x, p.y)) ps i default
      rw [← h4, hprev, h3, h5]
    rw [h1]
    exact ⟨rfl, rfl, congrArg Prod.fst h2, congrArg Prod.snd h2⟩
  · have hout : (stepFrame cfg env sq ps).1.getD i default = default := by
      rw [hmid]
      refine getD_of_length_le _ _ _ ?_
      rw [List.length_map, hlen]
      omega
    have hps : ps.getD i default = default :=
      getD_of_length_le _ _ _ (by omega)
    rw [hout, hps, hdef]
    norm_num

/-- Claim C9: the frame step is a pure function of its inputs (identical
states give identical results), and an isolated particle receives zero
relaxation displacement — its frame result is exactly
predict-clamp-reconcile, i.e. gravity, pointer and damping only. -/
theorem frame_deterministic_isolated (cfg : Config) (env : Env)
    (sq : ℚ → ℚ) (p : Particle) (st1 st2 : List Particle)
    (hk : 1 ≤ cfg.subSteps) :
    (st1 = st2 → stepFrame cfg env sq st1 = stepFrame cfg env sq st2)
      ∧ (stepFrame cfg env sq [p]).1
          = [reconcileP cfg (clampP cfg env (predictP cfg env sq 3 p))] := by
  refine ⟨fun h => by rw [h], ?_⟩
  have h1 : (stepFrame cfg env sq [p]).1
      = ((substep cfg env sq)^[cfg.subSteps]
          [predictP cfg env sq 3 p]).map (reconcileP cfg) :=
    stepFrame_fst cfg env sq [p]
  rw [h1, iterate_substep_singleton cfg env sq _ _ hk]
  rfl

/-- Witness for C9 at a concrete configuration, state and square root. -/
theorem frame_deterministic_isolated_witness :
    (([pEx] : List Particle) = [pEx] →
        stepFrame CONFIG_002 env0 (fun _ => 0) [pEx]
          = stepFrame CONFIG_002 env0 (fun _ => 0) [pEx])
      ∧ (stepFrame CONFIG_002 env0 (fun _ => 0) [pEx]).1
          = [reconcileP CONFIG_002
              (clampP CONFIG_002 env0
                (predictP CONFIG_002 env0 (fun _ => 0) 3 pEx))] :=
  frame_deterministic_isolated CONFIG_002 env0 (fun _ => 0) pEx [pEx] [pEx]
    (by decide)

/-- Claim C10: one frame step on zero particles completes (the embedding
is a total function) and leaves the observable state unchanged — the
particle array stays empty and every grid the frame builds is the empty
grid, which is also the initial value of the `grid` global. -/
theorem empty_step_noop :
    stepFrame CONFIG_002 env0 (fun _ => 0) []
      = (([] : List Particle),
          List.replicate CONFIG_002.subSteps emptyGrid) := rfl

/-- Claim C8: with the pointer active and a particle exactly at the
pointer position, the squared distance `0` passes the
`d2 < interactionRadius^2` guard, and the repulsion then divides by
`d = sqrt 0 = 0` — the checked embedding reports the division-by-zero
(`none`, `NaN` in the JS source) — while the relaxation neighbor filter
would have rejected `d2 = 0` through its epsilon test. -/
theorem pointer_zero_distance_nan (sq : ℚ → ℚ) (hs : sq 0 = 0) :
    pointerAccelCoreChecked CONFIG_002.interactionRadius 3 sq true
        100 100 100 100 = none
      ∧ (0 : ℚ) < CONFIG_002.interactionRadius ^ 2
      ∧ neighborCondB CONFIG_002 0 = false := by
  refine ⟨?_, by norm_num [CONFIG_002], ?_⟩
  · unfold pointerAccelCoreChecked
    norm_num [hs, CONFIG_002]
  · unfold neighborCondB
    norm_num [epsQ]

/-- Witness for C8 with a concrete square-root function. -/
theorem pointer_zero_distance_nan_witness :
    pointerAccelCoreChecked CONFIG_002.interactionRadius 3 (fun _ => 0) true
        100 100 100 100 = none
      ∧ (0 : ℚ) < CONFIG_002.interactionRadius ^ 2
      ∧ neighborCondB CONFIG_002 0 = false :=
  pointer_zero_distance_nan (fun _ => 0) rfl

theorem abs_floor_div_sub_le_one {a b c : ℚ} (hc : 0 < c)
    (h : |a - b| < c) : |⌊a / c⌋ - ⌊b / c⌋| ≤ 1 := by
  have hab := abs_lt.mp h
  have h1 : a / c < b / c + 1 := by
    have h2 : (a - b) / c < 1 := (div_lt_one hc).mpr (by linarith)
    have h3 : (a - b) / c = a / c - b / c := by ring
    linarith
  have h4 : b / c - 1 < a / c := by
    have h5 : (b - a) / c < 1 := (div_lt_one hc).mpr (by linarith)
    have h6 : (b - a) / c = b / c - a / c := by ring
    linarith
  have h7 : ⌊a / c⌋ ≤ ⌊b / c⌋ + 1 := by
    have := Int.floor_le_floor (le_of_lt h1)
    rwa [Int.floor_add_one] at this
  have h8 : ⌊b / c⌋ - 1 ≤ ⌊a / c⌋ := by
    have h9 : ⌊b / c - 1⌋ ≤ ⌊a / c⌋ := Int.floor_le_floor (le_of_lt h4)
    have h10 : ⌊b / c - 1⌋ = ⌊b / c⌋ - 1 := by
      have := Int.floor_add_int (b / c) (-1)
      simpa using this
    omega
  exact abs_le.mpr ⟨by omega, by omega⟩

/-- Claim C6: the 3×3 query is a complete superset of true neighbors —
whenever two indexed particles are within `cellSize = 2 × physicsRadius`
of each other, their cell coordinates differ by at most one per axis, and
the neighbor `j` appears among the candidates scanned in the 3×3 block
around `i`'s cell. -/
theorem grid_query_covers_cutoff (cfg : Config) (ps : List Particle)
    (i j : ℕ) (hG : 0 < cfg.physRadius) (hi : i < ps.length)
    (hj : j < ps.length)
    (hd : d2Spec (ps.getD j default) (ps.getD i default)
      < gridSize cfg ^ 2) :
    |(cellKey cfg (ps.getD j default).x (ps.getD j default).y).1
        - (cellKey cfg (ps.getD i default).x (ps.getD i default).y).1| ≤ 1
      ∧ |(cellKey cfg (ps.getD j default).x (ps.getD j default).y).2
          - (cellKey cfg (ps.getD i default).x (ps.getD i default).y).2| ≤ 1
      ∧ j ∈ queryCandidates (buildGrid cfg ps)
          (cellKey cfg (ps.getD i default).x (ps.getD i default).y) := by
  have hc : 0 < gridSize cfg := by
    unfold gridSize
    linarith
  have hdx : |(ps.getD j default).x - (ps.getD i default).x|
      < gridSize cfg := by
    refine abs_lt_of_sq_lt_sq ?_ (le_of_lt hc)
    unfold d2Spec at hd
    nlinarith [sq_nonneg ((ps.getD j default).y - (ps.getD i default).y)]
  have hdy : |(ps.getD j default).y - (ps.getD i default).y|
      < gridSize cfg := by
    refine abs_lt_of_sq_lt_sq ?_ (le_of_lt hc)
    unfold d2Spec at hd
    nlinarith [sq_nonneg ((ps.getD j default).x - (ps.getD i default).x)]
  have hax := abs_floor_div_sub_le_one hc hdx
  have hay := abs_floor_div_sub_le_one hc hdy
  refine ⟨hax, hay, ?_⟩
  have haxb := abs_le.mp hax
  have hayb := abs_le.mp hay
  have ho :
      ((cellKey cfg (ps.getD j default).x (ps.getD j default).y).1
          - (cellKey cfg (ps.getD i default).x (ps.getD i default).y).1,
        (cellKey cfg (ps.getD j default).x (ps.getD j default).y).2
          - (cellKey cfg (ps.getD i default).x (ps.getD i default).y).2)
        ∈ cellOffsets := by
    simp only [cellOffsets, cellKey, List.mem_cons, List.not_mem_nil,
      or_false, Prod.mk.injEq]
    omega
  refine mem_queryCandidates _ ho ?_
  have hcell :
      ((cellKey cfg (ps.getD i default).x (ps.getD i default).y).1
          + ((cellKey cfg (ps.getD j default).x (ps.getD j default).y).1
            - (cellKey cfg (ps.getD i default).x (ps.getD i default).y).1),
        (cellKey cfg (ps.getD i default).x (ps.getD i default).y).2
          + ((cellKey cfg (ps.getD j default).x (ps.getD j default).y).2
            - (cellKey cfg (ps.getD i default).x (ps.getD i default).y).2))
        = cellKey cfg (ps.getD j default).x (ps.getD j default).y := by
    refine Prod.ext ?_ ?_
    · show _ + (_ - _) = _
      omega
    · show _ + (_ - _) = _
      omega
  rw [hcell]
  exact mem_buildGrid hj

/-- A second concrete particle, within the cutoff of `pEx`. -/
def pEx2 : Particle := ⟨110, 105, 0, 0, 110, 105⟩

/-- Witness for C6 at a concrete two-particle state. -/
theorem grid_query_covers_cutoff_witness :
    |(cellKey CONFIG_002 (([pEx, pEx2].getD 1 default)).x
          (([pEx, pEx2].getD 1 default)).y).1
        - (cellKey CONFIG_002 (([pEx, pEx2].getD 0 default)).x
            (([pEx, pEx2].getD 0 default)).y).1| ≤ 1
      ∧ |(cellKey CONFIG_002 (([pEx, pEx2].getD 1 default)).x
            (([pEx, pEx2].getD 1 default)).y).2
          - (cellKey CONFIG_002 (([pEx, pEx2].getD 0 default)).x
              (([pEx, pEx2].getD 0 default)).y).2| ≤ 1
      ∧ 1 ∈ queryCandidates (buildGrid CONFIG_002 [pEx, pEx2])
          (cellKey CONFIG_002 (([pEx, pEx2].getD 0 default)).x
            (([pEx, pEx2].getD 0 default)).y) :=
  grid_query_covers_cutoff CONFIG_002 [pEx, pEx2] 0 1
    (by norm_num [CONFIG_002]) (by norm_num) (by norm_num)
    (by norm_num [d2Spec, gridSize, CONFIG_002, pEx, pEx2])

theorem rhoW_eq : rhoW = 0 := by
  unfold rhoW
  rw [collectNbrs_singleton]
  rfl

/-! ### Helper lemmas: the per-particle relaxation against the reference
definition (C4) -/

/-- The neighbor record that `collectNbrs` produces for a surviving
candidate `j`, written in terms of the spec's squared distance. -/
def nbrRec (sq : ℚ → ℚ) (ps : List Particle) (i : ℕ) (j : ℕ) : Nbr :=
  ⟨j, sq (d2Spec (ps.getD j default) (ps.getD i default)),
    (ps.getD j default).x - (ps.getD i default).x,
    (ps.getD j default).y - (ps.getD i default).y⟩

theorem trueNbrB_self (cfg : Config) (ps : List Particle) (i : ℕ) :
    trueNbrB cfg ps i i = false := by
  unfold trueNbrB
  have h0 : d2Spec (ps.getD i default) (ps.getD i default) = 0 := by
    unfold d2Spec
    ring
  rw [h0]
  have h1 : ¬(epsQ < (0 : ℚ)) := by norm_num [epsQ]
  simp [h1]

theorem nbrEntry_eq (cfg : Config) (sq : ℚ → ℚ) (ps : List Particle)
    (i j : ℕ) :
    nbrEntry cfg sq ps i (ps.getD i default).x (ps.getD i default).y j
      = if trueNbrB cfg ps i j then some (nbrRec sq ps i j) else none := by
  by_cases hji : j = i
  · subst hji
    rw [trueNbrB_self]
    simp [nbrEntry]
  · have e1 : ((ps.getD j default).x - (ps.getD i default).x)
        * ((ps.getD j default).x - (ps.getD i default).x)
        + ((ps.getD j default).y - (ps.getD i default).y)
        * ((ps.getD j default).y - (ps.getD i default).y)
        = d2Spec (ps.getD j default) (ps.getD i default) := by
      unfold d2Spec
      ring
    have hB : neighborCondB cfg
        (((ps.getD j default).x - (ps.getD i default).x)
          * ((ps.getD j default).x - (ps.getD i default).x)
          + ((ps.getD j default).y - (ps.getD i default).y)
          * ((ps.getD j default).y - (ps.getD i default).y))
        = trueNbrB cfg ps i j := by
      unfold neighborCondB trueNbrB
      rw [e1, show gridSize cfg * gridSize cfg = gridSize cfg ^ 2 from by
        ring]
    simp only [nbrEntry, if_neg hji]
    rw [hB, e1]
    rfl

theorem collectNbrs_eq (cfg : Config) (sq : ℚ → ℚ) (g : Grid)
    (ps : List Particle) (i : ℕ) :
    collectNbrs cfg sq g ps i (ps.getD i default).x (ps.getD i default).y
      = (trueNeighbors cfg g ps i).map (nbrRec sq ps i) := by
  unfold collectNbrs trueNeighbors
  generalize queryCandidates g
    (cellKey cfg (ps.getD i default).x (ps.getD i default).y) = l
  induction l with
  | nil => rfl
  | cons a t ih =>
    cases hT : trueNbrB cfg ps i a with
    | false =>
      have h1 : nbrEntry cfg sq ps i (ps.getD i default).x
          (ps.getD i default).y a = none := by
        rw [nbrEntry_eq, hT]
        rfl
      rw [List.filterMap_cons_none h1, List.filter_cons_of_neg (by simp [hT])]
      exact ih
    | true =>
      have h1 : nbrEntry cfg sq ps i (ps.getD i default).x
          (ps.getD i default).y a = some (nbrRec sq ps i a) := by
        rw [nbrEntry_eq, hT]
        rfl
      rw [List.filterMap_cons_some h1, List.filter_cons_of_pos (by simp [hT]),
        List.map_cons, ih]

theorem accumDensity_go (cfg : Config) (ns : List Nbr) :
    ∀ a : ℚ × ℚ,
      ns.foldl
          (fun a n =>
            let q := 1 - n.d / gridSize cfg
            (a.1 + q * q, a.2 + q * q * q)) a
        = (a.1 + (ns.map (fun n =>
              (1 - n.d / gridSize cfg) * (1 - n.d / gridSize cfg))).sum,
           a.2 + (ns.map (fun n =>
              (1 - n.d / gridSize cfg) * (1 - n.d / gridSize cfg)
                * (1 - n.d / gridSize cfg))).sum) := by
  induction ns with
  | nil => simp
  | cons n t ih =>
    intro a
    simp only [List.foldl_cons, List.map_cons, List.sum_cons]
    rw [ih]
    refine Prod.ext ?_ ?_
    · show _ + _ = _
      ring
    · show _ + _ = _
      ring

theorem accumDensity_eq (cfg : Config) (ns : List Nbr) :
    accumDensity cfg ns
      = ((ns.map (fun n =>
            (1 - n.d / gridSize cfg) * (1 - n.d / gridSize cfg))).sum,
         (ns.map (fun n =>
            (1 - n.d / gridSize cfg) * (1 - n.d / gridSize cfg)
              * (1 - n.d / gridSize cfg))).sum) := by
  unfold accumDensity
  rw [accumDensity_go]
  simp

theorem updXY_congr (ps : List Particle) (j : ℕ) {a b a2 b2 : ℚ}
    (ha : a = a2) (hb : b = b2) : updXY ps j a b = updXY ps j a2 b2 := by
  rw [ha, hb]

theorem triple_congr {l l2 : List Particle} {a a2 b b2 : ℚ}
    (h1 : l = l2) (h2 : a = a2) (h3 : b = b2) :
    ((l, a, b) : List Particle × ℚ × ℚ) = (l2, a2, b2) := by
  rw [h1, h2, h3]

theorem getD_specStep_ne (cfg : Config) (sq : ℚ → ℚ) (pi : Particle)
    (P PN : ℚ) (st : List Particle × ℚ × ℚ) (j : ℕ) {k : ℕ} (h : k ≠ j) :
    ((specStep cfg sq pi P PN st j).1).getD k default
      = st.1.getD k default := by
  unfold specStep
  exact getD_updXY_ne _ h _ _

theorem srcStep_eq_specStep (cfg : Config) (sq : ℚ → ℚ)
    (ps : List Particle) (i : ℕ) (P PN : ℚ) (cur : List Particle)
    (ax ay : ℚ) (j : ℕ)
    (hcur : cur.getD j default = ps.getD j default) :
    srcStep cfg P PN (cur, ax, ay) (nbrRec sq ps i j)
      = specStep cfg sq (ps.getD i default) P PN (cur, ax, ay) j := by
  unfold srcStep specStep nbrRec
  dsimp only
  rw [hcur]
  unfold d2Spec
  refine triple_congr (updXY_congr _ _ ?_ ?_) ?_ ?_ <;> ring

theorem dispFold_eq (cfg : Config) (sq : ℚ → ℚ) (ps : List Particle)
    (i : ℕ) (P PN : ℚ) (tn : List ℕ) :
    tn.Nodup → ∀ (cur : List Particle) (ax ay : ℚ),
      (∀ j, j ∈ tn → cur.getD j default = ps.getD j default) →
      dispFold cfg P PN (tn.map (nbrRec sq ps i)) (cur, ax, ay)
        = dispFoldSpec cfg sq (ps.getD i default) P PN tn (cur, ax, ay) := by
  induction tn with
  | nil => intro _ cur ax ay _; rfl
  | cons j t ih =>
    intro hnd cur ax ay hagree
    have hcur := hagree j (List.mem_cons_self ..)
    rw [List.map_cons, dispFold_cons,
      srcStep_eq_specStep cfg sq ps i P PN cur ax ay j hcur]
    show dispFold cfg P PN (t.map (nbrRec sq ps i))
        (specStep cfg sq (ps.getD i default) P PN (cur, ax, ay) j)
      = dispFoldSpec cfg sq (ps.getD i default) P PN t
        (specStep cfg sq (ps.getD i default) P PN (cur, ax, ay) j)
    have hnd2 := List.nodup_cons.mp hnd
    have hagree2 : ∀ j2, j2 ∈ t →
        ((specStep cfg sq (ps.getD i default) P PN (cur, ax, ay) j).1).getD
            j2 default
          = ps.getD j2 default := by
      intro j2 hj2
      have hne : j2 ≠ j := by
        intro he
        subst he
        exact hnd2.1 hj2
      rw [getD_specStep_ne cfg sq (ps.getD i default) P PN (cur, ax, ay) j
        hne]
      exact hagree j2 (List.mem_cons_of_mem _ hj2)
    exact ih hnd2.2 _ _ _ hagree2

theorem nodup_trueNeighbors (cfg : Config) (ps0 ps : List Particle)
    (i : ℕ) :
    (trueNeighbors cfg (buildGrid cfg ps0) ps i).Nodup :=
  (nodup_queryCandidates cfg ps0 _).filter _

/-- Claim C4: one relaxation substep for particle `i`, as the source
implements it against a freshly built grid, coincides with the reference
double-density-relaxation definition written from the spec. -/
theorem relax_substep_matches_reference (cfg : Config) (sq : ℚ → ℚ)
    (ps0 ps : List Particle) (i : ℕ) :
    relaxParticle cfg sq (buildGrid cfg ps0) ps i
      = relaxParticleSpec cfg sq (buildGrid cfg ps0) ps i := by
  unfold relaxParticle relaxParticleSpec
  dsimp only
  rw [collectNbrs_eq, accumDensity_eq]
  dsimp only
  have hrho : ((trueNeighbors cfg (buildGrid cfg ps0) ps i).map
        (nbrRec sq ps i)).map
        (fun n => (1 - n.d / gridSize cfg) * (1 - n.d / gridSize cfg))
      = (trueNeighbors cfg (buildGrid cfg ps0) ps i).map
        (fun j => (1 - sq (d2Spec (ps.getD j default) (ps.getD i default))
            / gridSize cfg) ^ 2) := by
    rw [List.map_map]
    refine List.map_congr_left ?_
    intro j _
    show (1 - (nbrRec sq ps i j).d / gridSize cfg)
        * (1 - (nbrRec sq ps i j).d / gridSize cfg) = _
    unfold nbrRec
    ring
  have hrhoN : ((trueNeighbors cfg (buildGrid cfg ps0) ps i).map
        (nbrRec sq ps i)).map
        (fun n => (1 - n.d / gridSize cfg) * (1 - n.d / gridSize cfg)
          * (1 - n.d / gridSize cfg))
      = (trueNeighbors cfg (buildGrid cfg ps0) ps i).map
        (fun j => (1 - sq (d2Spec (ps.getD j default) (ps.getD i default))
            / gridSize cfg) ^ 3) := by
    rw [List.map_map]
    refine List.map_congr_left ?_
    intro j _
    show (1 - (nbrRec sq ps i j).d / gridSize cfg)
        * (1 - (nbrRec sq ps i j).d / gridSize cfg)
        * (1 - (nbrRec sq ps i j).d / gridSize cfg) = _
    unfold nbrRec
    ring
  rw [hrho, hrhoN]
  have hP : pressureOf cfg
      ((trueNeighbors cfg (buildGrid cfg ps0) ps i).map
        (fun j => (1 - sq (d2Spec (ps.getD j default) (ps.getD i default))
            / gridSize cfg) ^ 2)).sum
      = cfg.stiffness
        * (((trueNeighbors cfg (buildGrid cfg ps0) ps i).map
          (fun j => (1 - sq (d2Spec (ps.getD j default)
              (ps.getD i default)) / gridSize cfg) ^ 2)).sum
          - cfg.restDensity) := rfl
  have hPN : nearPressureOf cfg
      ((trueNeighbors cfg (buildGrid cfg ps0) ps i).map
        (fun j => (1 - sq (d2Spec (ps.getD j default) (ps.getD i default))
            / gridSize cfg) ^ 3)).sum
      = cfg.stiffnessNear
        * ((trueNeighbors cfg (buildGrid cfg ps0) ps i).map
          (fun j => (1 - sq (d2Spec (ps.getD j default)
              (ps.getD i default)) / gridSize cfg) ^ 3)).sum := rfl
  rw [hP, hPN]
  have hdisp := dispFold_eq cfg sq ps i
    (cfg.stiffness
      * (((trueNeighbors cfg (buildGrid cfg ps0) ps i).map
        (fun j => (1 - sq (d2Spec (ps.getD j default) (ps.getD i default))
            / gridSize cfg) ^ 2)).sum - cfg.restDensity))
    (cfg.stiffnessNear
      * ((trueNeighbors cfg (buildGrid cfg ps0) ps i).map
        (fun j => (1 - sq (d2Spec (ps.getD j default) (ps.getD i default))
            / gridSize cfg) ^ 3)).sum)
    (trueNeighbors cfg (buildGrid cfg ps0) ps i)
    (nodup_trueNeighbors cfg ps0 ps i) ps 0 0 (fun _ _ => rfl)
  rw [hdisp]

/-- Witness for C7: the density of an isolated particle is below rest
density and the resulting pressure is negative. -/
theorem pressure_negative_below_rest_witness :
    rhoW < CONFIG_002.restDensity ∧ 0 < CONFIG_002.stiffness
      ∧ pressureOf CONFIG_002 rhoW < 0 :=
  ⟨by rw [rhoW_eq]; norm_num [CONFIG_002], by norm_num [CONFIG_002],
    pressure_negative_below_rest CONFIG_002 rhoW
      (by rw [rhoW_eq]; norm_num [CONFIG_002]) (by norm_num [CONFIG_002])⟩

end GravityWater
